import Mathlib

/-!
Shallow embedding of the `oiooj/Agent` host-metrics probe: the
`agent/common/ip.go` intranet predicate and the `agent/sysinfo/kernel_linux.go`
kernel / process / login-record collectors, together with theorems checking the
design document against this embedding.

Conventions: Go machine integers are `Int`/`Nat` with explicit reduction
modulo `2 ^ 32` (resp. `2 ^ 16`) where the code relies on fixed-width
behaviour; Go byte slices are `List Nat` whose entries are byte values
(0..255); a fallible Go call is an `Except` (error = Go non-nil error); a Go
pointer is an `Option`, `none` being `nil`.
-/

namespace Agent

/-! ## agent/common/ip.go -/

/-- Digit run accepted by the model of `strconv.ParseInt`: at least one
character, all decimal digits, read as a base-10 number. -/
def parseDigits (cs : List Char) : Option Nat :=
  if cs.isEmpty then none
  else if cs.all (fun c => c.isDigit) then
    some (cs.foldl (fun a c => a * 10 + (c.toNat - 48)) 0)
  else none

/-- Model of `strconv.ParseInt(s, 10, 64)` as `IsIntranet` uses it: an optional
sign followed by at least one decimal digit.  Go additionally errors on 64-bit
overflow (returning a saturated value together with the error); the only caller
here range-checks the parsed value against 16..31, which an overflowed
magnitude can never satisfy, so eliding overflow changes no caller-visible
verdict. -/
def parseInt10 (s : String) : Option Int :=
  match s.data with
  | '+' :: rest => (parseDigits rest).map (fun n => (n : Int))
  | '-' :: rest => (parseDigits rest).map (fun n => -(n : Int))
  | ds => (parseDigits ds).map (fun n => (n : Int))

/-- Model of `strings.HasPrefix`: the first string starts with the second.
(Stated on the character lists; the prefixes used here are ASCII, for which
the character-level and byte-level readings agree.) -/
def hasPre (s pre : String) : Bool :=
  pre.data.isPrefixOf s.data

/-- `common.IsIntranet` from `agent/common/ip.go`. -/
def IsIntranet (ipStr : String) : Bool :=
  if hasPre ipStr "10." || hasPre ipStr "192.168." then
    true
  else if hasPre ipStr "172." then
    -- 172.16.0.0-172.31.255.255
    let arr := ipStr.splitOn "."
    if arr.length ≠ 4 then
      false
    else
      match parseInt10 (arr.getD 1 "") with
      | none => false
      | some second => if 16 ≤ second ∧ second ≤ 31 then true else false
  else
    false

/-- C10's description of `IsIntranet`, written from the claim's wording: true
exactly when the string starts with "10." or "192.168.", or starts with "172."
and splits on '.' into exactly four parts whose second part parses (base 10)
into the range 16..31. -/
def isIntranetClaim (s : String) : Prop :=
  hasPre s "10." = true ∨ hasPre s "192.168." = true ∨
    (hasPre s "172." = true ∧ (s.splitOn ".").length = 4 ∧
      ∃ v : Int, parseInt10 ((s.splitOn ".").getD 1 "") = some v ∧ 16 ≤ v ∧ v ≤ 31)

/-! ## The metric sample consumed by the collectors

`common.Metric`, `toMetric` and `common.SetPrecision` live in repository files
that are not among the given sources; they are modelled from the spec. -/

/-- Modelled from the spec: `MetricSample` — "name, numeric value, unix
timestamp, mapping of tag-key to tag-value" (`common.Metric` is not among the
given sources).  The numeric value is taken exact, as `ℚ`. -/
structure Metric where
  name : String
  value : ℚ
  timestamp : Int
  tags : List (String × String)
deriving DecidableEq

/-- Modelled from the spec: `toMetric(name, value, tags)` shapes one metric
sample; samples are "timestamped", so the instant is passed explicitly
(`toMetric` is not among the given sources). -/
def toMetric (now : Int) (name : String) (value : ℚ)
    (tags : List (String × String)) : Metric :=
  { name := name, value := value, timestamp := now, tags := tags }

/-- Modelled from the spec: `common.SetPrecision(v, n)` — "rounded to 2 decimal
places" at `n = 2` (`SetPrecision` is not among the given sources; its float
arithmetic is taken exact). -/
def SetPrecision (v : ℚ) (n : Nat) : ℚ :=
  (round (v * 10 ^ n) : ℤ) / 10 ^ n

/-! ## sysinfo.FsKernelMetrics -/

/-- `sysinfo.FsKernelMetrics`, with the two `nux` kernel-counter collaborator
calls passed in as results.  Returns (emitted samples, logged error lines);
note the `kernel.files.max` sample is appended before `KernelAllocateFiles`
is consulted. -/
def fsKernelMetrics (now : Int) (maxFilesRes allocateFilesRes : Except String Int) :
    List Metric × List String :=
  match maxFilesRes with
  | .error e => ([], ["failed collect kernel metrics:" ++ e])
  | .ok maxFiles =>
    let L := [toMetric now "kernel.files.max" (maxFiles : ℚ) []]
    match allocateFilesRes with
    | .error e => (L, ["failed to call KernelAllocateFiles:" ++ e])
    | .ok allocateFiles =>
      let v := SetPrecision ((allocateFiles : ℚ) * 100 / (maxFiles : ℚ)) 2
      (L ++ [toMetric now "kernel.files.allocated" (allocateFiles : ℚ) [],
             toMetric now "kernel.files.allocated.percent" v [],
             toMetric now "kernel.files.left" ((maxFiles - allocateFiles : Int) : ℚ) []],
       [])

/-! ## sysinfo.PsMetrics -/

/-- The counter map of `PsMetrics` (`fields map[string]int64`; the map starts
empty and a missing key reads as zero, so each key is one counter from 0). -/
structure PsFields where
  wait : Nat
  blocked : Nat
  zombies : Nat
  stopped : Nat
  running : Nat
  sleeping : Nat
  idle : Nat
  exit : Nat
  unknown : Nat
  total : Nat
deriving DecidableEq

/-- The empty `fields` map: every counter reads 0. -/
def emptyPsFields : PsFields :=
  { wait := 0, blocked := 0, zombies := 0, stopped := 0, running := 0,
    sleeping := 0, idle := 0, exit := 0, unknown := 0, total := 0 }

/-- One whitespace-separated field of the `ps axo state` output.
`bytes.Fields` never produces an empty field, so a field is one leading byte
(the one `status[0]` switches on) plus the remaining bytes. -/
structure PsField where
  head : Char
  rest : List Char
deriving DecidableEq

/-- The field as the string Go compares against "STAT". -/
def psFieldStr (f : PsField) : String :=
  String.mk (f.head :: f.rest)

/-- The `switch status[0]` statement of `PsMetrics`, as the sequential
comparison a Go switch performs: updates the counter map; the boolean tells
whether the `default` arm (the "Unknown state" error log) ran. -/
def psSwitchInner (fields : PsFields) (c : Char) : PsFields × Bool :=
  if c = 'W' then ({ fields with wait := fields.wait + 1 }, false)
  else if c = 'U' ∨ c = 'D' ∨ c = 'L' then
    -- Also known as uninterruptible sleep or disk sleep
    ({ fields with blocked := fields.blocked + 1 }, false)
  else if c = 'Z' then ({ fields with zombies := fields.zombies + 1 }, false)
  else if c = 'T' then ({ fields with stopped := fields.stopped + 1 }, false)
  else if c = 'R' then ({ fields with running := fields.running + 1 }, false)
  else if c = 'S' then ({ fields with sleeping := fields.sleeping + 1 }, false)
  else if c = 'I' then ({ fields with idle := fields.idle + 1 }, false)
  else if c = 'X' then ({ fields with exit := fields.exit + 1 }, false)
  else if c = '?' then ({ fields with unknown := fields.unknown + 1 }, false)
  else (fields, true)

/-- One non-header iteration of the `PsMetrics` loop: the switch on the first
byte, then the unconditional `fields["total"]` increment placed after the
switch. -/
def psSwitch (fields : PsFields) (c : Char) : PsFields × Bool :=
  let r := psSwitchInner fields c
  ({ r.1 with total := r.1.total + 1 }, r.2)

/-- The `PsMetrics` loop over the fields of the `ps` output: `i` is the field
index, a field equal to "STAT" at index 0 is the skipped header; `errs` counts
the `default`-arm error logs. -/
def psTallyAux (i : Nat) (fields : PsFields) (errs : Nat) :
    List PsField → PsFields × Nat
  | [] => (fields, errs)
  | f :: rest =>
    if i = 0 ∧ psFieldStr f = "STAT" then
      psTallyAux (i + 1) fields errs rest
    else
      match psSwitch fields f.head with
      | (fields2, err) =>
        psTallyAux (i + 1) fields2 (errs + if err then 1 else 0) rest

/-- The whole tallying pass of `PsMetrics`. -/
def psTally (tokens : List PsField) : PsFields × Nat :=
  psTallyAux 0 emptyPsFields 0 tokens

/-- `sysinfo.PsMetrics`, with the `execPS` collaborator output passed in as the
already-split fields (`Except` error = failed `ps` call, which is logged and
yields no samples).  Second component: number of "Unknown state" error logs. -/
def psMetrics (psOut : Except String (List PsField)) (now : Int) :
    List Metric × Nat :=
  match psOut with
  | .error _ => ([], 0)
  | .ok tokens =>
    match psTally tokens with
    | (fields, errs) =>
      ([toMetric now "ps.zombies.num" (fields.zombies : ℚ) [],
        toMetric now "ps.running.num" (fields.running : ℚ) [],
        toMetric now "ps.total.num" (fields.total : ℚ) []], errs)

/-- The recognized process-state codes of the switch (the table in spec §6). -/
def recognizedState (c : Char) : Bool :=
  if c = 'W' ∨ c = 'U' ∨ c = 'D' ∨ c = 'L' ∨ c = 'Z' ∨ c = 'T' ∨ c = 'R' ∨
      c = 'S' ∨ c = 'I' ∨ c = 'X' ∨ c = '?' then true else false

/-- The named counter a recognized code tallies into (the table in spec §6). -/
def counterFor (c : Char) (f : PsFields) : Nat :=
  if c = 'W' then f.wait
  else if c = 'U' ∨ c = 'D' ∨ c = 'L' then f.blocked
  else if c = 'Z' then f.zombies
  else if c = 'T' then f.stopped
  else if c = 'R' then f.running
  else if c = 'S' then f.sleeping
  else if c = 'I' then f.idle
  else if c = 'X' then f.exit
  else if c = '?' then f.unknown
  else 0

/-- Sum of the nine named per-state counters (everything except `total`). -/
def namedTotal (f : PsFields) : Nat :=
  f.wait + f.blocked + f.zombies + f.stopped + f.running + f.sleeping +
    f.idle + f.exit + f.unknown

/-! ## The utmp record layout and `sysinfo.Read` (see `man utmp`) -/

/-- Byte size of one on-disk `Utmp` record, the `encoding/binary` size of the
struct: 2 type + 2 alignment + 4 pid + 32 device + 4 id + 32 user + 256 host +
4 exit + 4 session + 8 time + 16 addr + 20 reserved = 384. -/
def recordSize : Nat := 384

/-- Little-endian value of a byte list (byte 0 least significant). -/
def leNat (bs : List Nat) : Nat :=
  bs.foldr (fun b acc => b + 256 * acc) 0

/-- Signed 16-bit value of its unsigned representation. -/
def toInt16 (n : Nat) : Int :=
  if n < 2 ^ 15 then (n : Int) else (n : Int) - 2 ^ 16

/-- Signed 32-bit value of its unsigned representation. -/
def toInt32 (n : Nat) : Int :=
  if n < 2 ^ 31 then (n : Int) else (n : Int) - 2 ^ 32

/-- Unsigned 32-bit representation of a signed `int32` value.  The Go source's
mask/shift expressions on a two's-complement `int32` coincide with the same
expressions on this `Nat`. -/
def w32 (x : Int) : Nat :=
  (x % 2 ^ 32).toNat

/-- `sysinfo.ExitStatus` (two `int16`). -/
structure ExitStatus where
  termination : Int
  exit : Int
deriving DecidableEq

/-- `sysinfo.TimeVal` (two `int32`). -/
structure TimeVal where
  sec : Int
  usec : Int
deriving DecidableEq

/-- `sysinfo.Utmp`: the decoded fixed-width record (`LineSize = 32`,
`NameSize = 32`, `HostSize = 256`; `Addr [4]int32` as four words). -/
structure Utmp where
  type : Int
  pid : Int
  device : List Nat
  id : List Nat
  user : List Nat
  host : List Nat
  exit : ExitStatus
  session : Int
  time : TimeVal
  addr0 : Int
  addr1 : Int
  addr2 : Int
  addr3 : Int
  reserved : List Nat
deriving DecidableEq

/-- `binary.Read(file, binary.LittleEndian, u)` applied to one 384-byte chunk:
each field read at its offset in the fixed little-endian layout (the 2
alignment bytes at offset 2 are skipped, the reserved tail kept raw). -/
def decodeUtmp (bs : List Nat) : Utmp :=
  { type := toInt16 (leNat ((bs.drop 0).take 2)),
    pid := toInt32 (leNat ((bs.drop 4).take 4)),
    device := (bs.drop 8).take 32,
    id := (bs.drop 40).take 4,
    user := (bs.drop 44).take 32,
    host := (bs.drop 76).take 256,
    exit := { termination := toInt16 (leNat ((bs.drop 332).take 2)),
              exit := toInt16 (leNat ((bs.drop 334).take 2)) },
    session := toInt32 (leNat ((bs.drop 336).take 4)),
    time := { sec := toInt32 (leNat ((bs.drop 340).take 4)),
              usec := toInt32 (leNat ((bs.drop 344).take 4)) },
    addr0 := toInt32 (leNat ((bs.drop 348).take 4)),
    addr1 := toInt32 (leNat ((bs.drop 352).take 4)),
    addr2 := toInt32 (leNat ((bs.drop 356).take 4)),
    addr3 := toInt32 (leNat ((bs.drop 360).take 4)),
    reserved := (bs.drop 364).take 20 }

/-- The errors `binary.Read` produces on this input model: `eof` for a read of
zero bytes (`io.EOF`), `unexpectedEOF` for a short read
(`io.ErrUnexpectedEOF`). -/
inductive ReadError where
  | eof
  | unexpectedEOF
deriving DecidableEq

/-- `sysinfo.readLine`: decode one record from the front of the stream. -/
def readLine (bs : List Nat) : Except ReadError (Utmp × List Nat) :=
  if bs.length = 0 then .error ReadError.eof
  else if bs.length < recordSize then .error ReadError.unexpectedEOF
  else .ok (decodeUtmp (bs.take recordSize), bs.drop recordSize)

/-- `sysinfo.Read`: pull records until `readLine` fails; `io.EOF` breaks the
loop and returns the accumulated records with a nil error, any other error
hits `return nil, readErr` — the records decoded so far are dropped.  The Go
pair `([]*Utmp, error)` is modelled as (records, optional error). -/
def Read (bs : List Nat) : List Utmp × Option ReadError :=
  match h : readLine bs with
  | .error ReadError.eof => ([], none)
  | .error ReadError.unexpectedEOF => ([], some ReadError.unexpectedEOF)
  | .ok (u, rest) =>
    match Read rest with
    | (us, none) => (u :: us, none)
    | (_, some e) => ([], some e)
termination_by bs.length
decreasing_by
  simp only [readLine] at h
  split at h
  · exact absurd h (by simp)
  · split at h
    · exact absurd h (by simp)
    · injection h with h2
      injection h2 with h3 h4
      rw [← h4]
      simp only [List.length_drop]
      simp only [recordSize] at *
      omega

/-! ## The record normalizer (`sysinfo.NewGoUtmp`) -/

/-- `sysinfo.GoExitStatus`. -/
structure GoExitStatus where
  termination : Int
  exit : Int
deriving DecidableEq

/-- A Go byte buffer as a string (`string(b)`). -/
def bytesToString (bs : List Nat) : String :=
  String.mk (bs.map Char.ofNat)

/-- `sysinfo.getByteLen`: the index `bytes.IndexByte(b, 0)` of the first 0
byte, and 0 when there is none (`n == -1`). -/
def getByteLen (byteArray : List Nat) : Nat :=
  match byteArray.findIdx? (fun b => b == 0) with
  | none => 0
  | some n => n

/-- The string extraction `string(buf[:getByteLen(buf[:])])` applied to every
buffer field in `NewGoUtmp`. -/
def extractString (bs : List Nat) : String :=
  bytesToString (bs.take (getByteLen bs))

/-- Lowercase, unpadded hexadecimal rendering (Go `%x` on a non-negative
value). -/
def toHex (n : Nat) : String :=
  String.mk (Nat.toDigits 16 n)

/-- `sysinfo.addrToString` on the four `int32` words of `Addr`. -/
def addrToString (a0 a1 a2 a3 : Int) : String :=
  if a1 = 0 ∧ a2 = 0 ∧ a3 = 0 then
    toString (w32 a0 &&& 0xFF) ++ "." ++
      toString ((w32 a0 >>> 8) &&& 0xFF) ++ "." ++
      toString ((w32 a0 >>> 16) &&& 0xFF) ++ "." ++
      toString ((w32 a0 >>> 24) &&& 0xFF)
  else
    toHex (w32 a0 &&& 0xFFFF) ++ ":" ++ toHex ((w32 a0 >>> 16) &&& 0xFFFF) ++ ":" ++
      toHex (w32 a1 &&& 0xFFFF) ++ ":" ++ toHex ((w32 a1 >>> 16) &&& 0xFFFF) ++ ":" ++
      toHex (w32 a2 &&& 0xFFFF) ++ ":" ++ toHex ((w32 a2 >>> 16) &&& 0xFFFF) ++ ":" ++
      toHex (w32 a3 &&& 0xFFFF) ++ ":" ++ toHex ((w32 a3 >>> 16) &&& 0xFFFF)

/-- `sysinfo.GoUtmp`; `Time` (`time.Unix(Sec, 0)`) is kept as its unix
seconds. -/
structure GoUtmp where
  type : Int
  pid : Int
  device : String
  id : String
  user : String
  host : String
  exit : GoExitStatus
  session : Int
  time : Int
  addr : String
deriving DecidableEq

/-- `sysinfo.NewGoUtmp`. -/
def NewGoUtmp (u : Utmp) : GoUtmp :=
  { type := u.type,
    pid := u.pid,
    device := extractString u.device,
    id := extractString u.id,
    user := extractString u.user,
    host := extractString u.host,
    exit := { termination := u.exit.termination, exit := u.exit.exit },
    session := u.session,
    time := u.time.sec,
    addr := addrToString u.addr0 u.addr1 u.addr2 u.addr3 }

/-! ## sysinfo.WtmpMetrics -/

/-- A Go runtime panic reachable in this code. -/
inductive GoPanic where
  | nilDereference
deriving DecidableEq

/-- A field store through a `*common.Metric` pointer: storing through `nil`
panics with a nil-pointer dereference. -/
def ptrStore (p : Option Metric) (f : Metric → Metric) :
    Except GoPanic (Option Metric) :=
  match p with
  | none => .error GoPanic.nilDereference
  | some m => .ok (some (f m))

/-- The record loop of `WtmpMetrics`.  For a record inside the 5-minute window
the source declares `var m *common.Metric` (nil) and then stores `m.Name`,
`m.Value`, `m.Timestamp` and `m.Tags` through it before appending `m` (the
pointed-to sample, `Option.toList`).  `time.Time` values are unix seconds
(`tmp.Time.After(now.Add(time.Minute * -5))` is the strict comparison, at the
seconds resolution both sides have here). -/
def wtmpLoop (now : Int) : List Utmp → List Metric → Except GoPanic (List Metric)
  | [], L => .ok L
  | gu :: rest, L =>
    let tmp := NewGoUtmp gu
    if now - 5 * 60 < tmp.time then do
      let m0 : Option Metric := none
      let m1 ← ptrStore m0 (fun x => { x with name := "kernel.user.login" })
      let m2 ← ptrStore m1 (fun x => { x with value := 1 })
      let m3 ← ptrStore m2 (fun x => { x with timestamp := tmp.time })
      let m4 ← ptrStore m3
        (fun x => { x with tags := [("user", tmp.user), ("host", tmp.host)] })
      wtmpLoop now rest (L ++ m4.toList)
    else
      wtmpLoop now rest L

/-- `sysinfo.WtmpMetrics`, with the contents of `/var/log/wtmp` passed in as
the byte stream and the current instant as unix seconds (a failed open, like a
`Read` error, is logged and yields the empty list; the loop re-reads
`time.Now()` per record, which changes nothing stated here).  The result is an
`Except` because the loop body can panic. -/
def wtmpMetrics (stream : List Nat) (now : Int) : Except GoPanic (List Metric) :=
  match Read stream with
  | (_, some _) => .ok []
  | (us, none) => wtmpLoop now us []

/-! ## Concrete inputs and claim-side helpers -/

/-- List of `n` zero bytes. -/
def zeros (n : Nat) : List Nat :=
  List.replicate n 0

/-- One 384-byte wtmp record: type 7 (user process), user "a", the given
seconds timestamp (little-endian), everything else zero. -/
def wtmpStream (sec : Nat) : List Nat :=
  [7, 0] ++ [0, 0] ++ zeros 4 ++ zeros 32 ++ zeros 4 ++
    ([97] ++ zeros 31) ++ zeros 256 ++ zeros 4 ++ zeros 4 ++
    [sec % 256, sec / 256 % 256, sec / 65536 % 256, sec / 16777216 % 256] ++
    zeros 4 ++ zeros 16 ++ zeros 20

/-- Split a character list into its colon-separated groups (the "hextets" the
claims about `addrToString` speak of). -/
def splitCols : List Char → List (List Char)
  | [] => [[]]
  | c :: cs =>
    if c = ':' then [] :: splitCols cs
    else
      match splitCols cs with
      | [] => [[c]]
      | g :: gs => (c :: g) :: gs

/-- The colon-separated groups of a string, as strings. -/
def hextets (s : String) : List String :=
  (splitCols s.data).map (fun g => String.mk g)

/-! ## Evaluation lemmas for `Read` -/

theorem Read_nil : Read ([] : List Nat) = ([], none) := by
  unfold Read
  rfl

theorem Read_short (bs : List Nat) (h0 : 0 < bs.length)
    (h1 : bs.length < recordSize) :
    Read bs = ([], some ReadError.unexpectedEOF) := by
  have hr : readLine bs = .error ReadError.unexpectedEOF := by
    unfold readLine
    rw [if_neg (by omega), if_pos h1]
  unfold Read
  split
  · simp_all
  · rfl
  · simp_all

theorem Read_step (bs : List Nat) (h : recordSize ≤ bs.length) :
    Read bs =
      (match Read (bs.drop recordSize) with
       | (us, none) => (decodeUtmp (bs.take recordSize) :: us, none)
       | (_, some e) => ([], some e)) := by
  have hr : readLine bs = .ok (decodeUtmp (bs.take recordSize), bs.drop recordSize) := by
    unfold readLine
    rw [if_neg (by simp only [recordSize] at h; omega), if_neg (by omega)]
  conv_lhs => unfold Read
  split
  · simp_all
  · simp_all
  · rename_i u rest heq
    rw [hr] at heq
    injection heq with hp
    injection hp with hu hrest
    rw [← hu, ← hrest]

/-- On a stream of exactly `n` whole records, `Read` terminates cleanly with
`n` records. -/
theorem read_records_of_mul :
    ∀ (n : Nat) (bs : List Nat), bs.length = n * recordSize →
      ∃ us, Read bs = (us, none) ∧ us.length = n := by
  intro n
  induction n with
  | zero =>
    intro bs hlen
    have h : bs = [] := List.length_eq_zero.mp (by simpa using hlen)
    subst h
    exact ⟨[], Read_nil, rfl⟩
  | succ n ih =>
    intro bs hlen
    simp only [recordSize] at hlen
    have hge : recordSize ≤ bs.length := by
      simp only [recordSize]
      omega
    obtain ⟨us, hus, hlen2⟩ := ih (bs.drop recordSize) (by
      simp only [List.length_drop, recordSize]
      omega)
    refine ⟨decodeUtmp (bs.take recordSize) :: us, ?_, by simp [hlen2]⟩
    rw [Read_step bs hge, hus]

/-- On a stream of `k` whole records plus a non-empty proper tail, `Read`
returns the truncated-record error and `nil` records. -/
theorem read_records_truncated :
    ∀ (k r : Nat) (bs : List Nat), 0 < r → r < recordSize →
      bs.length = k * recordSize + r →
      Read bs = ([], some ReadError.unexpectedEOF) := by
  intro k
  induction k with
  | zero =>
    intro r bs h0 h1 hlen
    exact Read_short bs (by omega) (by omega)
  | succ k ih =>
    intro r bs h0 h1 hlen
    simp only [recordSize] at hlen h1
    have hge : recordSize ≤ bs.length := by
      simp only [recordSize]
      omega
    have hrec := ih r (bs.drop recordSize) h0 (by simp only [recordSize]; omega) (by
      simp only [List.length_drop, recordSize]
      omega)
    rw [Read_step bs hge, hrec]

/-! ## C7 and C2: the Binary Record Reader on whole and truncated streams -/

/-- C7: for every byte stream whose length is an exact multiple of the fixed
record size, `Read` decodes exactly `length / recordSize` records and
terminates cleanly — the full record list with no error, end of stream at a
record boundary being clean termination. -/
theorem Read_decodes_whole_streams_cleanly (bs : List Nat)
    (h : bs.length % recordSize = 0) :
    ∃ us, Read bs = (us, none) ∧ us.length = bs.length / recordSize :=
  read_records_of_mul (bs.length / recordSize) bs
    (Nat.div_mul_cancel (Nat.dvd_of_mod_eq_zero h)).symm

theorem zeros_length (n : Nat) : (zeros n).length = n := by
  simp [zeros]

/-- C7 witness: a stream of 768 zero bytes is two whole records and is decoded
cleanly into `768 / 384` records. -/
theorem Read_decodes_whole_streams_cleanly_witness :
    ∃ us, Read (zeros 768) = (us, none) ∧
      us.length = (zeros 768).length / recordSize :=
  Read_decodes_whole_streams_cleanly (zeros 768) (by rw [zeros_length]; decide)

/-- C2 counterexample: on the 385-byte stream (`k = 1` whole record plus
`r = 1` trailing byte) `Read` does not yield the one record decoded before the
short read — it yields none at all — while signalling the truncated-record
error.  This falsifies the claim that the `k` decoded records remain retained
and available: `Read` hits `return nil, readErr`. -/
theorem Read_truncation_counterexample :
    (Read (zeros 385)).1.length ≠ 1 ∧
      (Read (zeros 385)).2 = some ReadError.unexpectedEOF := by
  have h := read_records_truncated 1 1 (zeros 385) (by omega) (by decide)
    (by rw [zeros_length]; decide)
  rw [h]
  exact ⟨by decide, rfl⟩

/-- C2 (amended): for every byte stream of length `k * recordSize + r` with
`0 < r < recordSize`, `Read` signals the truncated-record error and returns no
records: the `k` records decoded before the short read are discarded
(`return nil, readErr`), not retained. -/
theorem Read_truncated_discards_records (k r : Nat) (bs : List Nat)
    (h0 : 0 < r) (h1 : r < recordSize) (hlen : bs.length = k * recordSize + r) :
    Read bs = ([], some ReadError.unexpectedEOF) :=
  read_records_truncated k r bs h0 h1 hlen

/-- C2 witness: the amended statement at the concrete 385-byte stream. -/
theorem Read_truncated_discards_records_witness :
    Read (zeros 385) = ([], some ReadError.unexpectedEOF) :=
  Read_truncated_discards_records 1 1 (zeros 385) (by omega) (by decide)
    (by rw [zeros_length]; decide)

/-! ## C1 and C4: `WtmpMetrics` and the nil `*common.Metric` -/

theorem wtmpStream_length (sec : Nat) : (wtmpStream sec).length = 384 := by
  simp only [wtmpStream, zeros, List.length_append, List.length_replicate,
    List.length_cons, List.length_nil]

/-- A single-record stream decodes to its one record with no error. -/
theorem Read_wtmpStream (sec : Nat) :
    Read (wtmpStream sec) =
      ([decodeUtmp ((wtmpStream sec).take recordSize)], none) := by
  rw [Read_step (wtmpStream sec)
    (by rw [wtmpStream_length]; simp [recordSize])]
  rw [show (wtmpStream sec).drop recordSize = [] from
    List.drop_eq_nil_of_le (by rw [wtmpStream_length]; simp [recordSize])]
  rw [Read_nil]

/-- C1: the claim says `WtmpMetrics` produces, for a record strictly inside
the 5-minute window, one sample named "kernel.user.login" with value 1 and the
record's user/host tags.  The code instead stores the sample's fields through
the nil pointer `var m *common.Metric` and panics: at `now = 1000`, the record
with timestamp `now − 240` (inside the window, the spec's `now − 4 min`
example) makes `wtmpMetrics` reach the nil-pointer dereference and emit
nothing, while the record with timestamp `now − 360` (outside the window) is
silently dropped as claimed. -/
theorem wtmpMetrics_panics_instead_of_emitting :
    wtmpMetrics (wtmpStream 760) 1000 = .error GoPanic.nilDereference ∧
      wtmpMetrics (wtmpStream 640) 1000 = .ok [] := by
  constructor
  · unfold wtmpMetrics
    rw [Read_wtmpStream]
    rfl
  · unfold wtmpMetrics
    rw [Read_wtmpStream]
    rfl

/-- C4: the claim says no input makes `WtmpMetrics` abort.  The code reaches
an unhandled nil-pointer dereference when building a metric sample: a wtmp
stream holding one record whose timestamp equals `now` makes `wtmpMetrics`
end in the `GoPanic.nilDereference` branch rather than complete. -/
theorem wtmpMetrics_nil_pointer_panic :
    wtmpMetrics (wtmpStream 1000) 1000 = .error GoPanic.nilDereference := by
  unfold wtmpMetrics
  rw [Read_wtmpStream]
  rfl

/-! ## C3 and C9: `addrToString` -/

/-- C3 counterexample: for the raw address field `[0,0,0,1]` the rendered
string's last hextet is "0", not "1" — word4-low (holding the 1) is rendered
seventh and word4-high eighth. -/
theorem addrToString_last_hextet_counterexample :
    (hextets (addrToString 0 0 0 1)).getLast? ≠ some "1" := by
  decide

/-- C3 (amended): for the raw address field `[0,0,0,1]` the eight hextets come
in the order word1-low, word1-high, word2-low, word2-high, word3-low,
word3-high, word4-low, word4-high, so the seventh hextet is "1" and the other
seven are "0": the rendered string is "0:0:0:0:0:0:1:0". -/
theorem addrToString_ipv6_shaped_order :
    addrToString 0 0 0 1 = "0:0:0:0:0:0:1:0" ∧
      hextets (addrToString 0 0 0 1) =
        ["0", "0", "0", "0", "0", "0", "1", "0"] := by
  exact ⟨by decide, by decide⟩

theorem w32_toInt32 (w : Nat) (h : w < 2 ^ 32) : w32 (toInt32 w) = w := by
  unfold w32 toInt32
  split
  · omega
  · omega

/-- C9: for every 32-bit word placed in address word 1 with words 2, 3, 4
zero, `addrToString` renders the dotted quad whose component `i` is
`(w >>> (8*i)) &&& 0xFF`. -/
theorem addrToString_ipv4_roundtrip (w : Nat) (h : w < 2 ^ 32) :
    addrToString (toInt32 w) 0 0 0 =
      toString (w &&& 0xFF) ++ "." ++ toString ((w >>> 8) &&& 0xFF) ++ "." ++
        toString ((w >>> 16) &&& 0xFF) ++ "." ++ toString ((w >>> 24) &&& 0xFF) := by
  unfold addrToString
  rw [if_pos ⟨rfl, rfl, rfl⟩, w32_toInt32 w h]

/-- C9 witness: word 1 holding `0x0100007F` normalizes to exactly
"127.0.0.1". -/
theorem addrToString_ipv4_roundtrip_witness :
    addrToString (toInt32 0x0100007F) 0 0 0 = "127.0.0.1" := by
  rw [addrToString_ipv4_roundtrip 0x0100007F (by decide)]
  decide

/-! ## C8: string extraction from fixed-size buffers -/

theorem findIdx_beq_zero_append (pre post : List Nat) (h : ∀ b ∈ pre, b ≠ 0) :
    ∀ i, List.findIdx? (fun b => b == 0) (pre ++ 0 :: post) i =
      some (i + pre.length) := by
  induction pre with
  | nil =>
    intro i
    simp [List.findIdx?_cons]
  | cons a pre ih =>
    intro i
    have ha : (a == 0) = false :=
      beq_eq_false_iff_ne.mpr (h a (List.mem_cons_self a pre))
    rw [List.cons_append, List.findIdx?_cons, ha]
    simp only [Bool.false_eq_true, if_false]
    rw [ih (fun b hb => h b (List.mem_cons_of_mem a hb)) (i + 1)]
    congr 1
    simp only [List.length_cons]
    omega

theorem getByteLen_first_null (pre post : List Nat) (h : ∀ b ∈ pre, b ≠ 0) :
    getByteLen (pre ++ 0 :: post) = pre.length := by
  unfold getByteLen
  rw [findIdx_beq_zero_append pre post h 0]
  simp

theorem getByteLen_no_null (bs : List Nat) (h : ∀ b ∈ bs, b ≠ 0) :
    getByteLen bs = 0 := by
  unfold getByteLen
  rw [List.findIdx?_eq_none_iff.mpr (fun b hb => beq_eq_false_iff_ne.mpr (h b hb))]

/-- C8: string normalization truncates at the first null byte scanning from
offset 0 — `['a','b','c',0,'x','x']` yields "abc", a buffer starting with null
yields "" — and a buffer containing no null byte at all also yields the empty
string. -/
theorem extractString_truncates_at_first_null :
    (∀ pre post, (∀ b ∈ pre, b ≠ 0) →
        extractString (pre ++ 0 :: post) = bytesToString pre) ∧
      extractString [97, 98, 99, 0, 120, 120] = "abc" ∧
      (∀ bs, extractString (0 :: bs) = "") ∧
      (∀ bs, (∀ b ∈ bs, b ≠ 0) → extractString bs = "") := by
  refine ⟨?_, by decide, fun bs => rfl, ?_⟩
  · intro pre post h
    unfold extractString
    rw [getByteLen_first_null pre post h]
    rw [show pre ++ 0 :: post = pre ++ (0 :: post) from rfl, List.take_left]
  · intro bs h
    unfold extractString
    rw [getByteLen_no_null bs h]
    rfl

/-! ## C5: process-state tallying -/

/-- C5 counterexample: the unrecognized state token "A" is logged (one
"Unknown state" error) yet not excluded from the total count: `total` is 1,
not 0. -/
theorem psTally_unrecognized_counted_in_total :
    (psTally [PsField.mk 'A' []]).1.total ≠ 0 ∧
      (psTally [PsField.mk 'A' []]).2 = 1 := by
  decide

/-- C5 (amended): a token whose first byte is a recognized code is tallied
into its named counter and into `total` with no error logged; a token with an
unrecognized first byte is logged as a localized error and excluded from the
named per-state counters, but it is still counted in `total`. -/
theorem psSwitch_tallies_and_logs (fields : PsFields) (c : Char) :
    if recognizedState c then
      (psSwitch fields c).2 = false ∧
        (psSwitch fields c).1.total = fields.total + 1 ∧
        counterFor c (psSwitch fields c).1 = counterFor c fields + 1 ∧
        namedTotal (psSwitch fields c).1 = namedTotal fields + 1
    else
      (psSwitch fields c).2 = true ∧
        (psSwitch fields c).1.total = fields.total + 1 ∧
        namedTotal (psSwitch fields c).1 = namedTotal fields := by
  by_cases h1 : c = 'W'
  · subst h1
    simp [recognizedState, psSwitch, psSwitchInner, counterFor, namedTotal]
    omega
  by_cases h2 : c = 'U'
  · subst h2
    simp [recognizedState, psSwitch, psSwitchInner, counterFor, namedTotal]
    omega
  by_cases h3 : c = 'D'
  · subst h3
    simp [recognizedState, psSwitch, psSwitchInner, counterFor, namedTotal]
    omega
  by_cases h4 : c = 'L'
  · subst h4
    simp [recognizedState, psSwitch, psSwitchInner, counterFor, namedTotal]
    omega
  by_cases h5 : c = 'Z'
  · subst h5
    simp [recognizedState, psSwitch, psSwitchInner, counterFor, namedTotal]
    omega
  by_cases h6 : c = 'T'
  · subst h6
    simp [recognizedState, psSwitch, psSwitchInner, counterFor, namedTotal]
    omega
  by_cases h7 : c = 'R'
  · subst h7
    simp [recognizedState, psSwitch, psSwitchInner, counterFor, namedTotal]
    omega
  by_cases h8 : c = 'S'
  · subst h8
    simp [recognizedState, psSwitch, psSwitchInner, counterFor, namedTotal]
    omega
  by_cases h9 : c = 'I'
  · subst h9
    simp [recognizedState, psSwitch, psSwitchInner, counterFor, namedTotal]
    omega
  by_cases h10 : c = 'X'
  · subst h10
    simp [recognizedState, psSwitch, psSwitchInner, counterFor, namedTotal]
    omega
  by_cases h11 : c = '?'
  · subst h11
    simp [recognizedState, psSwitch, psSwitchInner, counterFor, namedTotal]
    omega
  simp [recognizedState, psSwitch, psSwitchInner, counterFor, namedTotal,
    h1, h2, h3, h4, h5, h6, h7, h8, h9, h10, h11]

/-! ## C6: `FsKernelMetrics` under collaborator failure -/

/-- C6 counterexample: when `KernelMaxFiles` succeeds (1000) and
`KernelAllocateFiles` fails, `FsKernelMetrics` does not skip the kernel-files
group entirely: the `kernel.files.max` sample was already appended and is
emitted. -/
theorem fsKernelMetrics_emits_despite_failure :
    (fsKernelMetrics 0 (.ok 1000) (.error "permission denied")).1.length ≠ 0 := by
  decide

/-- C6 (amended): a failed `KernelMaxFiles` call is logged and yields no
samples; a failed `KernelAllocateFiles` call is logged and skips the three
remaining samples of the group, but the already-appended `kernel.files.max`
sample is still emitted for that cycle. -/
theorem fsKernelMetrics_on_collaborator_failure (now : Int) (e : String)
    (res : Except String Int) (maxFiles : Int) :
    fsKernelMetrics now (.error e) res =
        ([], ["failed collect kernel metrics:" ++ e]) ∧
      fsKernelMetrics now (.ok maxFiles) (.error e) =
        ([toMetric now "kernel.files.max" (maxFiles : ℚ) []],
          ["failed to call KernelAllocateFiles:" ++ e]) := by
  exact ⟨rfl, rfl⟩

/-! ## C10: `IsIntranet` -/

/-- C10: `IsIntranet s` is true exactly when `s` starts with "10." or
"192.168.", or starts with "172." and splits on '.' into exactly four parts
whose second part parses as a base-10 integer in 16..31; no other validation
is performed, so the non-address string "10.garbage" still returns true. -/
theorem IsIntranet_characterization :
    (∀ s, IsIntranet s = true ↔ isIntranetClaim s) ∧
      IsIntranet "10.garbage" = true := by
  constructor
  · intro s
    unfold IsIntranet isIntranetClaim
    by_cases h10 : hasPre s "10." = true
    · simp [h10]
    · by_cases h192 : hasPre s "192.168." = true
      · simp [h10, h192]
      · by_cases h172 : hasPre s "172." = true
        · by_cases hlen : (s.splitOn ".").length = 4
          · rcases hp : parseInt10 ((s.splitOn ".").getD 1 "") with _ | v
            all_goals simp [hlen] at hp
            · simp [h10, h192, h172, hlen, hp]
            · by_cases hv : 16 ≤ v ∧ v ≤ 31
              · simp [h10, h192, h172, hlen, hp, hv]
              · simp [h10, h192, h172, hlen, hp, hv]
          · simp [h10, h192, h172, hlen]
        · simp [h10, h192, h172]
  · decide

end Agent
